import Mathlib

/-!
# Verification of the LXC execution driver (`execdriver/lxc/driver.go`)

Shallow embedding of the container lifecycle controller: argument-vector
assembly for the external `lxc-start` tool, the shared-root unshare/shell
wrapper, the start-confirmation poll (`waitForStart`), exit-code extraction,
signal delivery with tool fallback (`kill`), cgroup PID discovery
(`GetPidsForContainer`), and shared-root detection (`rootIsShared`).

External collaborators (the `cgroups` path-resolution utility, `exec.LookPath`,
process spawning, the filesystem) are abstracted as explicit environment
records; the driver code itself is translated line by line from the source.
-/

namespace LxcDriver

/-- `DriverName = "lxc"` (driver.go line 20). -/
def DriverName : String := "lxc"

/-- Network portion of `execdriver.Command` used by `Run`:
gateway, IP address, IP prefix length, MTU. -/
structure NetworkConfig where
  Gateway : String
  IPAddress : String
  IPPrefixLen : Int
  Mtu : Int
  deriving DecidableEq, Repr

/-- The fields of `execdriver.Command` that `Run`'s argument assembly reads. -/
structure Command where
  ID : String
  InitPath : String
  Entrypoint : String
  Arguments : List String
  WorkingDir : String
  User : String
  Privileged : Bool
  Network : Option NetworkConfig
  deriving DecidableEq, Repr

/-- The `driver` struct (driver.go lines 56-60). -/
structure Driver where
  root : String
  apparmor : Bool
  sharedRoot : Bool
  deriving DecidableEq, Repr

/-- Model of Go `strconv.Itoa` / `%d` on a (signed) integer. -/
def itoa (n : Int) : String := toString n

/-- Argument-vector assembly of `Run` before the shared-root wrap
(driver.go lines 87-122), translated statement by statement.
`path.Join(d.root, "lxc-start-unconfined")` is modelled as string
concatenation with a single separator, which agrees with Go `path.Join`
for a clean, nonempty root. -/
def buildParams (d : Driver) (c : Command) (configPath : String) : List String :=
  let params : List String :=
    ["lxc-start",
     "-n", c.ID,
     "-f", configPath,
     "--",
     c.InitPath,
     "-driver",
     DriverName]
  let params :=
    match c.Network with
    | some network =>
        params ++
          ["-g", network.Gateway,
           "-i", network.IPAddress ++ "/" ++ itoa network.IPPrefixLen,
           "-mtu", itoa network.Mtu]
    | none => params
  let params := if c.User = "" then params else params ++ ["-u", c.User]
  let params :=
    if c.Privileged then
      (if d.apparmor then params.set 0 (d.root ++ "/lxc-start-unconfined")
       else params) ++ ["-privileged"]
    else params
  let params := if c.WorkingDir = "" then params else params ++ ["-w", c.WorkingDir]
  params ++ ("--" :: c.Entrypoint :: c.Arguments)

/-- The program name the assembled vector starts with: the unconfined
symlink when privileged with apparmor enabled, plain `lxc-start` otherwise. -/
def progName (d : Driver) (c : Command) : String :=
  if c.Privileged && d.apparmor then d.root ++ "/lxc-start-unconfined" else "lxc-start"

/-- Optional network flags, per the spec sentence
`-g <gateway> -i <ip>/<prefixLen> -mtu <mtu>` if networked. -/
def networkArgs : Option NetworkConfig → List String
  | some n => ["-g", n.Gateway, "-i", n.IPAddress ++ "/" ++ itoa n.IPPrefixLen,
               "-mtu", itoa n.Mtu]
  | none => []

/-- Optional `-u <user>` flag, present exactly when a user is set. -/
def userArgs (u : String) : List String := if u = "" then [] else ["-u", u]

/-- Optional `-privileged` flag. -/
def privilegedArgs (p : Bool) : List String := if p then ["-privileged"] else []

/-- Optional `-w <workdir>` flag, present exactly when a working directory is set. -/
def workdirArgs (w : String) : List String := if w = "" then [] else ["-w", w]

/-- C1 -- For every ContainerSpec, `Run` assembles the isolation-tool argument
vector as the fixed prefix (program name, `-n <ID>`, `-f <configPath>`, `--`,
init-stage path, `-driver lxc`) followed by the network flags exactly when a
NetworkConfig is present, `-u <user>` exactly when a user is set, `-privileged`
exactly when the privileged flag is set, `-w <workdir>` exactly when a working
directory is set, then `--`, the entrypoint, and the remaining arguments
verbatim; with no optional parts the vector is exactly the fixed tokens. -/
theorem run_params_order (d : Driver) (c : Command) (configPath : String) :
    buildParams d c configPath =
      [progName d c, "-n", c.ID, "-f", configPath, "--", c.InitPath, "-driver", DriverName]
        ++ networkArgs c.Network ++ userArgs c.User ++ privilegedArgs c.Privileged
        ++ workdirArgs c.WorkingDir ++ ("--" :: c.Entrypoint :: c.Arguments)
    ∧ (c.Network = none → c.User = "" → c.Privileged = false → c.WorkingDir = "" →
        buildParams d c configPath =
          ["lxc-start", "-n", c.ID, "-f", configPath, "--", c.InitPath, "-driver",
            DriverName, "--", c.Entrypoint] ++ c.Arguments) := by
  constructor
  · unfold buildParams progName networkArgs userArgs privilegedArgs workdirArgs
    cases hN : c.Network <;>
      cases hP : c.Privileged <;>
        by_cases hU : c.User = "" <;>
          by_cases hW : c.WorkingDir = "" <;>
            cases hA : d.apparmor <;>
              simp [hN, hP, hU, hW, hA, List.set]
  · intro hN hU hP hW
    unfold buildParams
    simp [hN, hU, hP, hW]

/-- Witness for `run_params_order`: a spec with no network, no user, no
privilege and no working directory yields exactly the fixed tokens. -/
theorem run_params_order_witness :
    buildParams ⟨"/var/lib/docker", false, false⟩
        ⟨"cid", "/sbin/init", "/bin/echo", ["a b", "c"], "", "", false, none⟩ "/cfg/config.lxc" =
      ["lxc-start", "-n", "cid", "-f", "/cfg/config.lxc", "--", "/sbin/init", "-driver",
        "lxc", "--", "/bin/echo", "a b", "c"] := by
  have h := (run_params_order ⟨"/var/lib/docker", false, false⟩
      ⟨"cid", "/sbin/init", "/bin/echo", ["a b", "c"], "", "", false, none⟩
      "/cfg/config.lxc").2 rfl rfl rfl rfl
  simpa using h

/-- Quoting of one character inside a single-quoted shell word: a literal
single quote becomes close-quote, backslash-escaped quote, open-quote
(the four characters `'\''`); every other character stands for itself. -/
def shellQuoteChar (ch : Char) : List Char :=
  if ch = '\'' then ['\'', '\\', '\'', '\''] else [ch]

/-- Quoting of a word body, character by character. -/
def quoteChars : List Char → List Char
  | [] => []
  | ch :: cs => shellQuoteChar ch ++ quoteChars cs

/-- Modelled from the spec: `utils.ShellQuoteArguments` (the `utils` package is
not under `src/`) -- "every launch argument is individually shell-escaped
before concatenation".  Each argument is wrapped in single quotes with embedded
quotes escaped, and the quoted words are joined by single spaces. -/
def shellQuote (w : String) : String :=
  ⟨'\'' :: (quoteChars w.data ++ ['\''])⟩

/-- Modelled from the spec: space-separated concatenation of the individually
shell-escaped arguments. -/
def shellQuoteArguments : List String → String
  | [] => ""
  | [w] => shellQuote w
  | w :: ws => shellQuote w ++ " " ++ shellQuoteArguments ws

/-- The shell command string built by `Run` when `sharedRoot` is true
(driver.go lines 131-133). -/
def shellStringFor (params : List String) : String :=
  "mount --make-rslave /; exec " ++ shellQuoteArguments params

/-- The full argument vector of `Run` including the shared-root wrap
(driver.go lines 87-138): when `d.sharedRoot` the assembled vector is replaced
by the unshare/shell wrapper. -/
def runParams (d : Driver) (c : Command) (configPath : String) : List String :=
  let params := buildParams d c configPath
  if d.sharedRoot then
    ["unshare", "-m", "--", "/bin/sh", "-c", shellStringFor params]
  else params

/-- Scanner state of the POSIX-style word splitter: outside quotes, inside
single quotes, or just after a backslash outside quotes. -/
inductive ShState where
  | norm
  | inQuote
  | escape
  deriving DecidableEq, Repr

/-- POSIX-style shell word splitting restricted to the features the quoting
uses: unquoted spaces separate words, single quotes protect their body
literally, a backslash outside quotes protects the next character.
`cur` is the current word read so far, `started` whether a word is open
(so that an empty quoted word `''` still yields an empty argument),
`acc` the words already produced. -/
def splitShellWords : List Char → ShState → List Char → Bool → List String → List String
  | [], .norm, cur, started, acc => if started then acc ++ [⟨cur⟩] else acc
  | [], .inQuote, cur, _, acc => acc ++ [⟨cur⟩]
  | [], .escape, cur, _, acc => acc ++ [⟨cur⟩]
  | ch :: rest, .norm, cur, started, acc =>
    if ch = ' ' then
      if started then splitShellWords rest .norm [] false (acc ++ [⟨cur⟩])
      else splitShellWords rest .norm cur started acc
    else if ch = '\'' then splitShellWords rest .inQuote cur true acc
    else if ch = '\\' then splitShellWords rest .escape cur true acc
    else splitShellWords rest .norm (cur ++ [ch]) true acc
  | ch :: rest, .inQuote, cur, started, acc =>
    if ch = '\'' then splitShellWords rest .norm cur started acc
    else splitShellWords rest .inQuote (cur ++ [ch]) started acc
  | ch :: rest, .escape, cur, started, acc =>
    splitShellWords rest .norm (cur ++ [ch]) started acc

/-- Reconstructing the argument vector from a shell command string. -/
def parseShellWords (s : String) : List String :=
  splitShellWords s.data .norm [] false []

theorem split_norm_space (rest : List Char) (cur : List Char) (acc : List String) :
    splitShellWords (' ' :: rest) .norm cur true acc =
      splitShellWords rest .norm [] false (acc ++ [⟨cur⟩]) := by
  rw [splitShellWords]; simp

theorem split_norm_quote (rest : List Char) (cur : List Char) (started : Bool)
    (acc : List String) :
    splitShellWords ('\'' :: rest) .norm cur started acc =
      splitShellWords rest .inQuote cur true acc := by
  rw [splitShellWords]; simp

theorem split_norm_backslash (rest : List Char) (cur : List Char) (started : Bool)
    (acc : List String) :
    splitShellWords ('\\' :: rest) .norm cur started acc =
      splitShellWords rest .escape cur true acc := by
  rw [splitShellWords]; simp

theorem split_escape (ch : Char) (rest : List Char) (cur : List Char)
    (started : Bool) (acc : List String) :
    splitShellWords (ch :: rest) .escape cur started acc =
      splitShellWords rest .norm (cur ++ [ch]) started acc := by
  rw [splitShellWords]

theorem split_inQuote_quote (rest : List Char) (cur : List Char) (started : Bool)
    (acc : List String) :
    splitShellWords ('\'' :: rest) .inQuote cur started acc =
      splitShellWords rest .norm cur started acc := by
  rw [splitShellWords]; simp

theorem split_inQuote_other (ch : Char) (h : ch ≠ '\'') (rest : List Char)
    (cur : List Char) (started : Bool) (acc : List String) :
    splitShellWords (ch :: rest) .inQuote cur started acc =
      splitShellWords rest .inQuote (cur ++ [ch]) started acc := by
  rw [splitShellWords]; simp [h]

theorem split_end_started (cur : List Char) (acc : List String) :
    splitShellWords [] .norm cur true acc = acc ++ [⟨cur⟩] := by
  rw [splitShellWords]; simp

theorem quoteChars_quote (cs : List Char) :
    quoteChars ('\'' :: cs) = '\'' :: '\\' :: '\'' :: '\'' :: quoteChars cs := by
  simp [quoteChars, shellQuoteChar]

theorem quoteChars_other (ch : Char) (h : ch ≠ '\'') (cs : List Char) :
    quoteChars (ch :: cs) = ch :: quoteChars cs := by
  simp [quoteChars, shellQuoteChar, h]

theorem splitShellWords_quoted_body (ws : List Char) :
    ∀ (rest cur : List Char) (acc : List String),
      splitShellWords (quoteChars ws ++ '\'' :: rest) .inQuote cur true acc =
        splitShellWords rest .norm (cur ++ ws) true acc := by
  induction ws with
  | nil =>
    intro rest cur acc
    simp only [quoteChars, List.nil_append, List.append_nil]
    rw [split_inQuote_quote]
  | cons ch cs ih =>
    intro rest cur acc
    by_cases h : ch = '\''
    · subst h
      rw [quoteChars_quote]
      simp only [List.cons_append]
      rw [split_inQuote_quote, split_norm_backslash, split_escape,
        split_norm_quote, ih]
      simp
    · rw [quoteChars_other ch h]
      simp only [List.cons_append]
      rw [split_inQuote_other ch h, ih]
      simp

theorem splitShellWords_quoted_word (w : String) (rest : List Char)
    (acc : List String) :
    splitShellWords ((shellQuote w).data ++ rest) .norm [] false acc =
      splitShellWords rest .norm w.data true acc := by
  show splitShellWords ('\'' :: (quoteChars w.data ++ ['\'']) ++ rest) _ _ _ _ = _
  rw [List.cons_append, split_norm_quote]
  simp only [List.append_assoc, List.singleton_append]
  rw [splitShellWords_quoted_body]
  simp

theorem parse_shellQuoteArguments (args : List String) :
    ∀ acc : List String,
      splitShellWords (shellQuoteArguments args).data .norm [] false acc =
        acc ++ args := by
  induction args with
  | nil => intro acc; simp [shellQuoteArguments, splitShellWords]
  | cons w ws ih =>
    intro acc
    cases ws with
    | nil =>
      simp only [shellQuoteArguments]
      rw [show (shellQuote w).data = (shellQuote w).data ++ [] by simp,
        splitShellWords_quoted_word, split_end_started]
    | cons v vs =>
      simp only [shellQuoteArguments]
      rw [String.data_append, String.data_append, List.append_assoc,
        splitShellWords_quoted_word]
      show splitShellWords (' ' :: (shellQuoteArguments (v :: vs)).data) _ _ _ _ = _
      rw [split_norm_space, ih]
      simp

/-- C2 -- When `sharedRoot` is true, `Run` replaces the assembled vector by the
unshare/shell wrapper `["unshare", "-m", "--", "/bin/sh", "-c", s]` with
`s = "mount --make-rslave /; exec "` followed by the individually
shell-escaped original arguments, and parsing the quoted part of the shell
string back into words recovers the unwrapped vector byte for byte. -/
theorem shared_root_wrap (d : Driver) (c : Command) (configPath : String)
    (h : d.sharedRoot = true) :
    runParams d c configPath =
      ["unshare", "-m", "--", "/bin/sh", "-c",
        "mount --make-rslave /; exec " ++ shellQuoteArguments (buildParams d c configPath)]
    ∧ parseShellWords (shellQuoteArguments (buildParams d c configPath)) =
        buildParams d c configPath := by
  constructor
  · simp [runParams, h, shellStringFor]
  · rw [parseShellWords, parse_shellQuoteArguments]
    simp

/-- Witness for `shared_root_wrap` at a concrete shared-root driver and a
command whose arguments contain spaces and a single quote. -/
theorem shared_root_wrap_witness :
    runParams ⟨"/r", true, true⟩
        ⟨"id1", "/init", "/bin/sh", ["a b", "it\x27s"], "", "", false, none⟩ "/cfg" =
      ["unshare", "-m", "--", "/bin/sh", "-c",
        "mount --make-rslave /; exec " ++ shellQuoteArguments (buildParams ⟨"/r", true, true⟩
          ⟨"id1", "/init", "/bin/sh", ["a b", "it\x27s"], "", "", false, none⟩ "/cfg")]
    ∧ parseShellWords (shellQuoteArguments (buildParams ⟨"/r", true, true⟩
          ⟨"id1", "/init", "/bin/sh", ["a b", "it\x27s"], "", "", false, none⟩ "/cfg")) =
        buildParams ⟨"/r", true, true⟩
          ⟨"id1", "/init", "/bin/sh", ["a b", "it\x27s"], "", "", false, none⟩ "/cfg" :=
  shared_root_wrap ⟨"/r", true, true⟩
    ⟨"id1", "/init", "/bin/sh", ["a b", "it\x27s"], "", "", false, none⟩ "/cfg" rfl

/-! ## Start confirmation (`waitForStart`, driver.go lines 236-269)

The loop interacts with the outside world once per iteration: it checks
whether the exit-watcher has closed `waitLock`, and runs `lxc-info -s -n <id>`
up to twice.  One `Obs` records those inputs for one iteration; the 5-second
bound is represented by the finite observation list (the loop times out with
`ErrNotRunning` when the list is exhausted).  `processExited` records the
value `c.ProcessState != nil && c.ProcessState.Exited()` would have — the
source checks it only on lines 250-252, which sit after the `return nil` on
line 249 and are therefore dead code. -/

/-- Inputs consumed by one iteration of the `waitForStart` loop. -/
structure Obs where
  exited : Bool
  processExited : Bool
  q1 : Except String String
  q2 : Except String String

/-- Errors `waitForStart` can return: `execdriver.ErrNotRunning` on timeout,
or a propagated status-query error. -/
inductive WaitErr where
  | notRunning
  | query (e : String)
  deriving DecidableEq, Repr

/-- Whether `pat` is a prefix of `s`, on character lists. -/
def isPrefixB : List Char → List Char → Bool
  | [], _ => true
  | _ :: _, [] => false
  | a :: as, b :: bs => a = b && isPrefixB as bs

/-- Whether `pat` occurs as a contiguous substring of `s`. -/
def hasSub (pat : List Char) : List Char → Bool
  | [] => pat.isEmpty
  | c :: rest => isPrefixB pat (c :: rest) || hasSub pat rest

/-- Model of Go `strings.Contains s "RUNNING"`. -/
def containsRUNNING (s : String) : Bool :=
  hasSub "RUNNING".data s.data

/-- One loop body of `waitForStart`, as a step that either terminates with a
result or continues polling (driver.go lines 246-266): the `select` first
checks `waitLock`; on the closed channel it returns `nil` (line 249) — the
`ProcessState.Exited()` check on lines 250-252 is after this `return` and is
never reached.  Otherwise the status query runs, is retried once on error
(lines 256-262), and the output is tested for the substring `"RUNNING"`. -/
def waitStep (o : Obs) : Option (Except WaitErr Unit) :=
  if o.exited then some (Except.ok ())
  else
    match o.q1 with
    | Except.ok output =>
        if containsRUNNING output then some (Except.ok ()) else none
    | Except.error _ =>
        match o.q2 with
        | Except.ok output =>
            if containsRUNNING output then some (Except.ok ()) else none
        | Except.error e2 => some (Except.error (WaitErr.query e2))

/-- `waitForStart` over an observation trace: iterate `waitStep` until it
terminates, or return `ErrNotRunning` when the 5-second bound is exhausted
(driver.go line 268). -/
def waitForStart : List Obs → Except WaitErr Unit
  | [] => Except.error WaitErr.notRunning
  | o :: rest =>
    match waitStep o with
    | some r => r
    | none => waitForStart rest

/-- An iteration that neither returns success nor an error: `waitLock` is
still open and the (possibly retried) status query succeeds with output not
containing `"RUNNING"`. -/
def stepContinues (o : Obs) : Bool :=
  (waitStep o).isNone

/-- `Obs` with the dead-code `ProcessState` reading replaced. -/
def obsSetProc (o : Obs) (b : Bool) : Obs :=
  { o with processExited := b }

theorem waitForStart_cons_continue (o : Obs) (rest : List Obs)
    (h : stepContinues o = true) :
    waitForStart (o :: rest) = waitForStart rest := by
  have h2 : waitStep o = none := by
    simpa [stepContinues, Option.isNone_iff_eq_none] using h
  simp [waitForStart, h2]

/-- C3 -- If the exit-watcher's completion signal has fired by some iteration
that the loop reaches (every earlier iteration continued polling), then
`waitForStart` returns success immediately from the signal-check branch,
whatever that iteration's status queries and `ProcessState` would have said;
moreover the result on any trace is independent of the `ProcessState.Exited()`
values, since that check sits after the early `return nil` and is never
executed. -/
theorem wait_early_return (pre : List Obs) (o : Obs) (post : List Obs)
    (hpre : ∀ p ∈ pre, stepContinues p = true) (hex : o.exited = true) :
    waitForStart (pre ++ o :: post) = Except.ok ()
    ∧ ∀ (trace : List Obs) (f : Obs → Bool),
        waitForStart (trace.map fun x => obsSetProc x (f x)) = waitForStart trace := by
  constructor
  · induction pre with
    | nil => simp [waitForStart, waitStep, hex]
    | cons p ps ih =>
      rw [List.cons_append, waitForStart_cons_continue p _ (hpre p (by simp))]
      exact ih fun q hq => hpre q (by simp [hq])
  · intro trace f
    induction trace with
    | nil => rfl
    | cons t ts ih =>
      have hstep : waitStep (obsSetProc t (f t)) = waitStep t := by
        simp [waitStep, obsSetProc]
      simp only [List.map_cons, waitForStart, hstep]
      cases waitStep t with
      | some r => rfl
      | none => exact ih

/-- Witness for `wait_early_return`: two quiet iterations (status `STOPPED`),
then the exit signal fires while the same iteration's query would have
errored; the loop still returns success. -/
theorem wait_early_return_witness :
    waitForStart
        [⟨false, false, Except.ok "state: STOPPED", Except.ok "state: STOPPED"⟩,
         ⟨false, false, Except.error "broken pipe", Except.ok "state: STOPPED"⟩,
         ⟨true, false, Except.error "broken pipe", Except.error "broken pipe"⟩] =
      Except.ok ()
    ∧ ∀ (trace : List Obs) (f : Obs → Bool),
        waitForStart (trace.map fun x => obsSetProc x (f x)) = waitForStart trace :=
  wait_early_return
    [⟨false, false, Except.ok "state: STOPPED", Except.ok "state: STOPPED"⟩,
     ⟨false, false, Except.error "broken pipe", Except.ok "state: STOPPED"⟩]
    ⟨true, false, Except.error "broken pipe", Except.error "broken pipe"⟩ []
    (by decide) rfl

/-- C4 -- If throughout the 5-second bound every status query succeeds with
output not containing `"RUNNING"` and the completion signal never fires, the
loop exhausts its bound and returns exactly `ErrNotRunning`. -/
theorem wait_times_out (trace : List Obs)
    (h : ∀ o ∈ trace, o.exited = false ∧
        ∃ out, o.q1 = Except.ok out ∧ containsRUNNING out = false) :
    waitForStart trace = Except.error WaitErr.notRunning := by
  induction trace with
  | nil => rfl
  | cons o rest ih =>
    obtain ⟨hex, out, hq1, hout⟩ := h o (by simp)
    have hstep : waitStep o = none := by simp [waitStep, hex, hq1, hout]
    simp only [waitForStart, hstep]
    exact ih fun q hq => h q (by simp [hq])

/-- Witness for `wait_times_out`: a trace of `STOPPED` responses. -/
theorem wait_times_out_witness :
    waitForStart
        [⟨false, false, Except.ok "state: STOPPED", Except.ok "state: STOPPED"⟩,
         ⟨false, true, Except.ok "state: STOPPED", Except.ok "state: STOPPED"⟩] =
      Except.error WaitErr.notRunning :=
  wait_times_out
    [⟨false, false, Except.ok "state: STOPPED", Except.ok "state: STOPPED"⟩,
     ⟨false, true, Except.ok "state: STOPPED", Except.ok "state: STOPPED"⟩]
    (by
      intro o ho
      simp only [List.mem_cons, List.not_mem_nil, or_false] at ho
      rcases ho with h | h <;> subst h <;>
        exact ⟨rfl, "state: STOPPED", rfl, rfl⟩)

/-- C5 -- Within one iteration a failing status query is retried exactly once:
if the retry succeeds, its output is what the `"RUNNING"` test inspects (the
loop returns success or keeps polling on that output alone); if the retry also
fails, that second error is propagated to the caller and polling stops. -/
theorem wait_retry_once (o : Obs) (rest : List Obs) (e : String)
    (hex : o.exited = false) (h1 : o.q1 = Except.error e) :
    (∀ out, o.q2 = Except.ok out →
        waitForStart (o :: rest) =
          if containsRUNNING out then Except.ok () else waitForStart rest)
    ∧ (∀ e2, o.q2 = Except.error e2 →
        waitForStart (o :: rest) = Except.error (WaitErr.query e2)) := by
  constructor
  · intro out h2
    simp only [waitForStart, waitStep, hex, h1, h2, Bool.false_eq_true, if_false]
    by_cases hr : containsRUNNING out = true
    · simp [hr]
    · simp [Bool.not_eq_true] at hr
      simp [hr]
  · intro e2 h2
    simp [waitForStart, waitStep, hex, h1, h2]

/-- Witness for `wait_retry_once`: first query breaks, retry reports RUNNING
(success path) and, at another observation, the retry also breaks
(propagation path). -/
theorem wait_retry_once_witness :
    waitForStart [⟨false, false, Except.error "pipe", Except.ok "state: RUNNING"⟩] =
      Except.ok ()
    ∧ waitForStart [⟨false, false, Except.error "pipe", Except.error "pipe2"⟩] =
      Except.error (WaitErr.query "pipe2") := by
  constructor
  · have h := ((wait_retry_once
        ⟨false, false, Except.error "pipe", Except.ok "state: RUNNING"⟩ [] "pipe"
        rfl rfl).1 "state: RUNNING" rfl)
    rw [h, if_pos (by rfl)]
  · exact (wait_retry_once
      ⟨false, false, Except.error "pipe", Except.error "pipe2"⟩ [] "pipe"
      rfl rfl).2 "pipe2" rfl

/-! ## Exit watching and exit-code extraction (driver.go lines 155-189) -/

/-- `os.ProcessState` as `getExitCode` reads it: a normally exited process
with its exit code, or a signal-terminated one. -/
inductive ProcState where
  | exitedWith (code : Nat)
  | signaled (sig : Nat)
  deriving DecidableEq, Repr

/-- `syscall.WaitStatus.ExitStatus()`: the exit code of a normally exited
process, `-1` for a signal-terminated one. -/
def exitStatus : ProcState → Int
  | ProcState.exitedWith code => Int.ofNat code
  | ProcState.signaled _ => -1

/-- `getExitCode` (driver.go lines 184-189): `-1` when `ProcessState` is nil,
otherwise the wait status's `ExitStatus()`. -/
def getExitCode : Option ProcState → Int
  | none => -1
  | some st => exitStatus st

/-- Outcome of `c.Wait()`: nil error (exit status 0), an `*exec.ExitError`
(non-zero or signaled exit, carrying the process state), or a wait-mechanism
failure. -/
inductive WaitOutcome where
  | success
  | exitError (st : ProcState)
  | waitFailure (e : String)
  deriving DecidableEq, Repr

/-- What the exit-watcher goroutine leaves behind (driver.go lines 159-166):
the recorded `waitErr` and whether `close(waitLock)` ran.  The `ExitError`
type test on line 161 discards a non-zero exit status; only a wait-mechanism
failure is stored.  `close(waitLock)` is the goroutine's final statement and
runs on every path, once. -/
structure WatchResult where
  waitErr : Option String
  signalled : Bool
  deriving DecidableEq, Repr

/-- The exit-watcher goroutine body. -/
def exitWatcher : WaitOutcome → WatchResult
  | WaitOutcome.success => ⟨none, true⟩
  | WaitOutcome.exitError _ => ⟨none, true⟩
  | WaitOutcome.waitFailure e => ⟨some e, true⟩

/-- `c.ProcessState` after `c.Wait()` returns: set to the reaped state on a
normal or non-zero/signaled exit, nil when the wait mechanism itself failed. -/
def processStateAfter : WaitOutcome → Option ProcState
  | WaitOutcome.success => some (ProcState.exitedWith 0)
  | WaitOutcome.exitError st => some st
  | WaitOutcome.waitFailure _ => none

/-- The tail of `Run` (driver.go lines 177-179): after `<-waitLock`, return
`(getExitCode c, waitErr)`. -/
def runResult (outcome : WaitOutcome) : Int × Option String :=
  ((getExitCode (processStateAfter outcome)), (exitWatcher outcome).waitErr)

/-- C6 -- A non-zero or signaled exit is not an error: for every such process
state the exit watcher records no `waitErr` (the `ExitError` is discarded) and
fires the completion signal, and `Run` returns the extracted exit code paired
with a nil error; the completion signal fires for every wait outcome. -/
theorem nonzero_exit_not_error :
    (∀ st : ProcState,
        (exitWatcher (WaitOutcome.exitError st)).waitErr = none
        ∧ (exitWatcher (WaitOutcome.exitError st)).signalled = true
        ∧ runResult (WaitOutcome.exitError st) = (exitStatus st, none))
    ∧ ∀ oc : WaitOutcome, (exitWatcher oc).signalled = true := by
  constructor
  · intro st
    exact ⟨rfl, rfl, rfl⟩
  · intro oc
    cases oc <;> rfl

/-! ## Cgroup PID discovery (`GetPidsForContainer`, driver.go lines 301-338) -/

/-- Whether `ch` is an ASCII decimal digit. -/
def isDigitB (ch : Char) : Bool :=
  '0' ≤ ch && ch ≤ '9'

/-- Digit run to a number; `none` on an empty run or a non-digit. -/
def digitsToNat : List Char → Option Nat
  | [] => none
  | cs => go cs 0
where
  go : List Char → Nat → Option Nat
    | [], acc => some acc
    | ch :: rest, acc =>
      if isDigitB ch then go rest (acc * 10 + (ch.toNat - '0'.toNat))
      else none

/-- Model of Go `strconv.Atoi`: an optional sign followed by at least one
decimal digit; anything else is an error (`none`).  The int64 range check is
not modelled. -/
def atoi (s : String) : Option Int :=
  match s.data with
  | '+' :: rest => (digitsToNat rest).map Int.ofNat
  | '-' :: rest => (digitsToNat rest).map fun n => -(Int.ofNat n)
  | cs => (digitsToNat cs).map Int.ofNat

/-- A malformed cgroup task entry, named by the offending line
(driver.go line 333: `Invalid pid '%s'`). -/
inductive PidErr where
  | invalid (line : String)
  deriving DecidableEq, Repr

/-- The parsing loop of `GetPidsForContainer` (driver.go lines 327-336):
blank lines are skipped, each other line goes through `strconv.Atoi`, and the
first failure stops the loop, returning the PIDs accumulated so far alongside
the error. -/
def parsePidsAux : List String → List Int → List Int × Option PidErr
  | [], acc => (acc, none)
  | p :: rest, acc =>
    if p.length = 0 then parsePidsAux rest acc
    else
      match atoi p with
      | none => (acc, some (PidErr.invalid p))
      | some pid => parsePidsAux rest (acc ++ [pid])

/-- Splitting a character list at every occurrence of `sep`; model of Go
`strings.Split` with a one-character separator (always returns at least one
piece, empty pieces preserved). -/
def splitOnChar (sep : Char) : List Char → List (List Char)
  | [] => [[]]
  | c :: rest =>
    if c = sep then [] :: splitOnChar sep rest
    else
      match splitOnChar sep rest with
      | [] => [[c]]
      | w :: ws => (c :: w) :: ws

/-- Model of Go `strings.Split(s, sep)` for a one-character separator. -/
def goSplit (s : String) (sep : Char) : List String :=
  (splitOnChar sep s.data).map fun cs => ⟨cs⟩

/-- Parsing of a whole `tasks` file: Go `strings.Split(content, "\n")`, then
the loop above. -/
def parsePids (content : String) : List Int × Option PidErr :=
  parsePidsAux (goSplit content '\n') []

theorem parsePidsAux_invalid (lines : List String) :
    ∀ acc : List Int,
      (∃ p ∈ lines, p.length ≠ 0 ∧ atoi p = none) →
      ∃ l, (parsePidsAux lines acc).2 = some (PidErr.invalid l)
        ∧ l.length ≠ 0 ∧ atoi l = none := by
  induction lines with
  | nil => intro acc h; simp at h
  | cons p rest ih =>
    intro acc h
    by_cases hb : p.length = 0
    · simp only [parsePidsAux, if_pos hb]
      apply ih
      obtain ⟨q, hq, hql, hqa⟩ := h
      rcases List.mem_cons.mp hq with h1 | h1
      · exact absurd hb (h1 ▸ hql)
      · exact ⟨q, h1, hql, hqa⟩
    · simp only [parsePidsAux, if_neg hb]
      cases ha : atoi p with
      | none => exact ⟨p, rfl, hb, ha⟩
      | some pid =>
        apply ih
        obtain ⟨q, hq, hql, hqa⟩ := h
        rcases List.mem_cons.mp hq with h1 | h1
        · subst h1; rw [hqa] at ha; cases ha
        · exact ⟨q, h1, hql, hqa⟩

/-- C7 -- `GetPidsForContainer` parses the tasks file as newline-separated
integers skipping blank lines: `"123\n456\n\n"` yields `[123, 456]` with no
error, `"123\nabc\n"` yields a `PidParseError` naming `"abc"`, and in general
whenever some non-blank line is not a valid integer the parse returns an
error naming such a line. -/
theorem get_pids_parsing :
    parsePids "123\n456\n\n" = ([123, 456], none)
    ∧ parsePids "123\nabc\n" = ([123], some (PidErr.invalid "abc"))
    ∧ ∀ content : String,
        (∃ p ∈ goSplit content '\n', p.length ≠ 0 ∧ atoi p = none) →
        ∃ l, (parsePids content).2 = some (PidErr.invalid l)
          ∧ l.length ≠ 0 ∧ atoi l = none := by
  refine ⟨by decide, by decide, ?_⟩
  intro content h
  exact parsePidsAux_invalid (goSplit content '\n') [] h

/-- Witness for `get_pids_parsing`: a file with the non-integer line `"4x"`. -/
theorem get_pids_parsing_witness :
    ∃ l, (parsePids "7\n4x\n9").2 = some (PidErr.invalid l)
      ∧ l.length ≠ 0 ∧ atoi l = none :=
  get_pids_parsing.2.2 "7\n4x\n9" ⟨"4x", by decide, by decide, rfl⟩

theorem goSplit_newlines : goSplit "123\n456\n\n" '\n' = ["123", "456", "", ""] := by
  decide

/-- Result of `os.Stat` as `GetPidsForContainer` consumes it: success, an
error satisfying `os.IsNotExist`, or some other error. -/
inductive StatResult where
  | ok
  | notExist
  | otherErr (e : String)
  deriving DecidableEq, Repr

/-- The external collaborators `GetPidsForContainer` calls: the `cgroups`
path-resolution utility (out of scope per the spec), `os.Stat` and
`ioutil.ReadFile`. -/
structure CgroupEnv where
  findCgroupMountpoint : String → Except String String
  getThisCgroupDir : String → Except String String
  stat : String → StatResult
  readFile : String → Except String String

/-- Errors of `GetPidsForContainer`, by the call that produced them. -/
inductive PidsErr where
  | mountpoint (e : String)
  | cgroupDir (e : String)
  | readErr (e : String)
  | parse (pe : PidErr)
  deriving DecidableEq, Repr

/-- Model of Go `filepath.Join` on already-clean components. -/
def filepathJoin (parts : List String) : String :=
  String.intercalate "/" parts

/-- The task-file path first targeted (driver.go line 317). -/
def tasksPath (cgroupRoot cgroupDir id : String) : String :=
  filepathJoin [cgroupRoot, cgroupDir, id, "tasks"]

/-- The fallback path under `lxc/` (driver.go line 320). -/
def tasksPathLxc (cgroupRoot cgroupDir id : String) : String :=
  filepathJoin [cgroupRoot, cgroupDir, "lxc", id, "tasks"]

/-- Reading and parsing the selected tasks file
(driver.go lines 323-337). -/
def readTasksFile (env : CgroupEnv) (filename : String) :
    List Int × Option PidsErr :=
  match env.readFile filename with
  | Except.error e => ([], some (PidsErr.readErr e))
  | Except.ok content =>
    let r := parsePids content
    (r.1, r.2.map PidsErr.parse)

/-- `GetPidsForContainer` (driver.go lines 301-338), translated statement by
statement against the abstracted collaborators: resolve the `memory` cgroup
mountpoint and the current cgroup directory (each failure returning the empty
`pids` slice alongside the error), pick the fallback `lxc/` path exactly when
`os.Stat` reports the primary path missing, then read and parse the file. -/
def GetPidsForContainer (env : CgroupEnv) (id : String) :
    List Int × Option PidsErr :=
  match env.findCgroupMountpoint "memory" with
  | Except.error e => ([], some (PidsErr.mountpoint e))
  | Except.ok cgroupRoot =>
    match env.getThisCgroupDir "memory" with
    | Except.error e => ([], some (PidsErr.cgroupDir e))
    | Except.ok cgroupDir =>
      let filename := tasksPath cgroupRoot cgroupDir id
      let filename :=
        if env.stat filename = StatResult.notExist then
          tasksPathLxc cgroupRoot cgroupDir id
        else filename
      readTasksFile env filename

/-- C8 -- `GetPidsForContainer` first targets
`<mountpoint>/<cgroupDir>/<ID>/tasks` and switches to the
`<mountpoint>/<cgroupDir>/lxc/<ID>/tasks` fallback exactly when the primary
path does not exist; a failure to resolve the cgroup mountpoint or the
current cgroup directory is propagated as an error together with an empty
PID list, never silently turned into an empty success. -/
theorem get_pids_paths (env : CgroupEnv) (id : String) :
    (∀ e, env.findCgroupMountpoint "memory" = Except.error e →
        GetPidsForContainer env id = ([], some (PidsErr.mountpoint e)))
    ∧ (∀ root e, env.findCgroupMountpoint "memory" = Except.ok root →
        env.getThisCgroupDir "memory" = Except.error e →
        GetPidsForContainer env id = ([], some (PidsErr.cgroupDir e)))
    ∧ (∀ root dir, env.findCgroupMountpoint "memory" = Except.ok root →
        env.getThisCgroupDir "memory" = Except.ok dir →
        GetPidsForContainer env id =
          readTasksFile env
            (if env.stat (tasksPath root dir id) = StatResult.notExist
             then tasksPathLxc root dir id
             else tasksPath root dir id)) := by
  refine ⟨?_, ?_, ?_⟩
  · intro e he
    simp [GetPidsForContainer, he]
  · intro root e hr he
    simp [GetPidsForContainer, hr, he]
  · intro root dir hr hd
    simp [GetPidsForContainer, hr, hd]

/-- A concrete collaborator environment: resolution succeeds, the primary
tasks path is missing, and the fallback file holds two PIDs. -/
def sampleCgroupEnv : CgroupEnv where
  findCgroupMountpoint := fun _ => Except.ok "/sys/fs/cgroup/memory"
  getThisCgroupDir := fun _ => Except.ok "/docker"
  stat := fun p =>
    if p = "/sys/fs/cgroup/memory/docker/lxc/cid/tasks" then StatResult.ok
    else StatResult.notExist
  readFile := fun p =>
    if p = "/sys/fs/cgroup/memory/docker/lxc/cid/tasks" then Except.ok "12\n34\n"
    else Except.error "no such file"

/-- Witness for `get_pids_paths`: with the primary path missing, the fallback
`lxc/` path is the one read. -/
theorem get_pids_paths_witness :
    GetPidsForContainer sampleCgroupEnv "cid" =
      readTasksFile sampleCgroupEnv
        (if sampleCgroupEnv.stat (tasksPath "/sys/fs/cgroup/memory" "/docker" "cid")
             = StatResult.notExist
         then tasksPathLxc "/sys/fs/cgroup/memory" "/docker" "cid"
         else tasksPath "/sys/fs/cgroup/memory" "/docker" "cid") :=
  (get_pids_paths sampleCgroupEnv "cid").2.2 "/sys/fs/cgroup/memory" "/docker" rfl rfl

/-! ## Signal delivery (`kill`, driver.go lines 219-234) -/

/-- The external collaborators of `kill`: `exec.LookPath` and command
execution returning combined output and an error. -/
structure KillEnv where
  lookPath : String → Option String
  runCommand : List String → String × Option String

/-- `SignalError`: the underlying error together with the combined output of
the attempted command (driver.go line 231: `Err: %s Output: %s`). -/
inductive KillErr where
  | signalError (e : String) (output : String)
  deriving DecidableEq, Repr

/-- `kill` (driver.go lines 219-234): use `lxc-kill -n <ID> <sig>` when
`exec.LookPath("lxc-kill")` succeeds, else `lxc-stop -k -n <ID> <sig>`;
a non-nil command error becomes a `SignalError` with the combined output,
otherwise nil. -/
def kill (env : KillEnv) (id : String) (sig : Int) : Option KillErr :=
  let r :=
    match env.lookPath "lxc-kill" with
    | some _ => env.runCommand ["lxc-kill", "-n", id, itoa sig]
    | none => env.runCommand ["lxc-stop", "-k", "-n", id, itoa sig]
  match r.2 with
  | some e => some (KillErr.signalError e r.1)
  | none => none

/-- C9 -- `kill` invokes the primary tool with `-n <ID> <sig>` exactly when
`lxc-kill` is found, otherwise the fallback with `-k -n <ID> <sig>`; a
non-zero exit of the chosen tool yields a `SignalError` carrying the
underlying error and the combined output, and a clean exit yields nil. -/
theorem kill_fallback_and_error (env : KillEnv) (id : String) (sig : Int) :
    (∀ p, env.lookPath "lxc-kill" = some p →
        kill env id sig =
          match (env.runCommand ["lxc-kill", "-n", id, itoa sig]).2 with
          | some e => some (KillErr.signalError e
              (env.runCommand ["lxc-kill", "-n", id, itoa sig]).1)
          | none => none)
    ∧ (env.lookPath "lxc-kill" = none →
        kill env id sig =
          match (env.runCommand ["lxc-stop", "-k", "-n", id, itoa sig]).2 with
          | some e => some (KillErr.signalError e
              (env.runCommand ["lxc-stop", "-k", "-n", id, itoa sig]).1)
          | none => none) := by
  constructor
  · intro p hp
    simp [kill, hp]
  · intro hn
    simp [kill, hn]

/-- A host without `lxc-kill` whose `lxc-stop` exits non-zero. -/
def sampleKillEnv : KillEnv where
  lookPath := fun _ => none
  runCommand := fun _ => ("lxc-stop: no such container", some "exit status 1")

/-- Witness for `kill_fallback_and_error`: the fallback tool is used and its
failure surfaces as a `SignalError` with the combined output. -/
theorem kill_fallback_and_error_witness :
    kill sampleKillEnv "cid" 9 =
      match (sampleKillEnv.runCommand ["lxc-stop", "-k", "-n", "cid", itoa 9]).2 with
      | some e => some (KillErr.signalError e
          (sampleKillEnv.runCommand ["lxc-stop", "-k", "-n", "cid", itoa 9]).1)
      | none => none :=
  (kill_fallback_and_error sampleKillEnv "cid" 9).2 rfl

/-! ## Shared-root detection (`rootIsShared`, driver.go lines 358-370) -/

/-- The per-line body of `rootIsShared`'s loop: Go splits the line on spaces
and, when `len(cols) >= 6 && cols[4] == "/"`, reads `cols[6]` — an access
that panics when the line has exactly six fields.  The panic is modelled as
`none`; `cols.getD 4 ""` is safe because the guard already ensured at least
six fields. -/
def rootIsSharedLoop : List String → Option Bool
  | [] => some true
  | line :: rest =>
    let cols := goSplit line ' '
    if 6 ≤ cols.length ∧ cols.getD 4 "" = "/" then
      if h : 6 < cols.length then some ((cols.get ⟨6, h⟩).startsWith "shared")
      else none
    else rootIsSharedLoop rest

/-- `rootIsShared` (driver.go lines 358-370): on a read failure of
`/proc/self/mountinfo` (modelled as `none`) the function assumes `true`;
otherwise it scans the lines.  A `none` result models the index-out-of-range
panic at `cols[6]`. -/
def rootIsShared (mountinfo : Option String) : Option Bool :=
  match mountinfo with
  | none => some true
  | some data => rootIsSharedLoop (goSplit data '\n')

/-- C10 -- refuted on the code: `rootIsShared` guards the `cols[6]` access
only by `len(cols) >= 6 && cols[4] == "/"`, so a malformed mountinfo line
with exactly six space-separated fields whose fifth field is `/` drives the
access out of bounds (a Go index-out-of-range panic, `none` in the model);
the function is not total over all mountinfo contents.  A well-formed
mountinfo line carrying a propagation field has at least seven fields, so the
guard is an off-by-one slip against the claim's intent. -/
theorem root_is_shared_out_of_bounds :
    rootIsShared (some "a b c d / f") = none := by
  decide

end LxcDriver
